import Mathlib

/-!
Shallow embedding of the jet-veto-map utility scripts (`src/jvm/`) of the
`cms-jme-scripts` repository, restricted to the numeric core the validation
and masking scripts implement:

* `compare_histograms` — the bin-content comparator shared (textually
  identical semantics) by `validate_root_root.py` and `validate_json_json.py`:
  edge checks via `np.allclose(..., atol=tolerance)` (numpy keeps its default
  relative tolerance `rtol = 1e-5`), bin-count check, then a loop recording
  every flat index whose difference `new - old` exceeds the tolerance in
  absolute value.
* `compare_histograms_rj` — the variant in `validate_root_json.py`, whose
  per-bin difference is `root_val - json_val` (first argument minus second).
* `remove_regions` — the region-zeroing loop of `remove_coordinates.py`.
* `remove_bpix_region` — the mask subtraction of `remove_bpix_region.py`.

Bin contents and edges are embedded as exact rationals (`ℚ`); file and
histogram I/O is out of scope (the spec treats the loaders as opaque), so the
functions act on already-loaded grids.  Python control flow that ends in
`sys.exit(1)` or an uncaught exception is embedded as an `Except` error value.
-/

namespace Jvm

/-- A loaded 2D histogram as the validation scripts see it: the triple
`(x_edges, y_edges, bin_contents)` returned by `load_root_histogram` /
`load_json_map`, with the bin contents flattened to one row-major list. -/
structure Grid where
  x_edges : List ℚ
  y_edges : List ℚ
  values : List ℚ
deriving DecidableEq, Repr

/-- numpy's default relative tolerance for `np.allclose` (`rtol = 1e-5`).
The scripts call `np.allclose(a, b, atol=tolerance)`, which leaves this
default in force. -/
def np_rtol : ℚ := 1 / 100000

/-- Model of `np.allclose(a, b, atol)` on one-dimensional equal-length
arrays: every pair satisfies `|a_i - b_i| <= atol + rtol * |b_i|` with the
default `rtol = 1e-5`.  Arrays of unequal length compare as not close (in
Python that case raises a broadcast error, which is equally fatal to the
caller). -/
def allclose (a b : List ℚ) (atol : ℚ) : Bool :=
  a.length == b.length &&
    (a.zip b).all (fun p => decide (|p.1 - p.2| ≤ atol + np_rtol * |p.2|))

/-- The ways `compare_histograms` aborts instead of returning a count:
the three `sys.exit(1)` mismatch branches, and the uncaught
`ZeroDivisionError` from `idx // num_phi_bins` when `num_phi_bins == 0`. -/
inductive CmpErr where
  | x_edges_mismatch
  | y_edges_mismatch
  | num_bins_mismatch
  | zero_division
deriving DecidableEq, Repr

/-- One differing bin as the comparison loop reports it: the flat index,
the 1-based `eta_bin` and `phi_bin` printed in the warning, the two source
values and their signed difference. -/
structure DiffRec where
  idx : Nat
  eta_bin : Int
  phi_bin : Int
  old_val : ℚ
  new_val : ℚ
  diff : ℚ
deriving DecidableEq, Repr

/-- The per-bin loop of `compare_histograms` in `validate_root_root.py` and
`validate_json_json.py`: walk both content lists in parallel from flat index
`idx`, and for every position where `|new - old| > tolerance` record the bin,
computing `eta_bin = idx // num_phi_bins + 1` and
`phi_bin = idx % num_phi_bins + 1` with Python floor division/modulo.
When `num_phi_bins = 0` that division raises, which we model as
`CmpErr.zero_division` at the first differing bin. -/
def cmp_bins (tolerance : ℚ) (num_phi_bins : Int) :
    Nat → List ℚ → List ℚ → Except CmpErr (Nat × List DiffRec)
  | _, [], _ => .ok (0, [])
  | _, _ :: _, [] => .ok (0, [])
  | idx, o :: os, n :: ns =>
    let diff := n - o
    if |diff| > tolerance then
      if num_phi_bins = 0 then .error .zero_division
      else
        match cmp_bins tolerance num_phi_bins (idx + 1) os ns with
        | .error e => .error e
        | .ok (c, rs) =>
          .ok (c + 1,
            ⟨idx, Int.fdiv idx num_phi_bins + 1, Int.fmod idx num_phi_bins + 1,
              o, n, diff⟩ :: rs)
    else cmp_bins tolerance num_phi_bins (idx + 1) os ns

/-- Function `compare_histograms(old_hist, new_hist, name, tolerance)` of
`validate_root_root.py` (and, with identical semantics, of
`validate_json_json.py`): check X edges, then Y edges with
`np.allclose(old, new, atol=tolerance)`, then equal bin counts, each failure
exiting fatally; then run the recording loop with
`num_phi_bins = len(y_edges_old) - 1`. -/
def compare_histograms (old_hist new_hist : Grid) (tolerance : ℚ) :
    Except CmpErr (Nat × List DiffRec) :=
  if ¬ allclose old_hist.x_edges new_hist.x_edges tolerance then
    .error .x_edges_mismatch
  else if ¬ allclose old_hist.y_edges new_hist.y_edges tolerance then
    .error .y_edges_mismatch
  else if new_hist.values.length ≠ old_hist.values.length then
    .error .num_bins_mismatch
  else
    cmp_bins tolerance ((old_hist.y_edges.length : Int) - 1) 0
      old_hist.values new_hist.values

/-- Default of the `--tolerance` CLI flag (`1e-6`) shared by all three
validation scripts. -/
def default_tolerance : ℚ := 1 / 1000000

/-- The exit decision of `main` once both loads succeeded: a comparator
abort exits `1`, otherwise `sys.exit(0 if differences == 0 else 1)`. -/
def main_exit_code (old_hist new_hist : Grid) (tolerance : ℚ) : Nat :=
  match compare_histograms old_hist new_hist tolerance with
  | .error _ => 1
  | .ok (differences, _) => if differences = 0 then 0 else 1

/-- The per-bin loop of `compare_histograms` in `validate_root_json.py`:
identical to the other two scripts except that the recorded difference is
`root_val - json_val` (first argument minus second); `old_val` holds the
ROOT value and `new_val` the JSON value. -/
def cmp_bins_rj (tolerance : ℚ) (num_phi_bins : Int) :
    Nat → List ℚ → List ℚ → Except CmpErr (Nat × List DiffRec)
  | _, [], _ => .ok (0, [])
  | _, _ :: _, [] => .ok (0, [])
  | idx, r :: rsv, j :: js =>
    let diff := r - j
    if |diff| > tolerance then
      if num_phi_bins = 0 then .error .zero_division
      else
        match cmp_bins_rj tolerance num_phi_bins (idx + 1) rsv js with
        | .error e => .error e
        | .ok (c, rs) =>
          .ok (c + 1,
            ⟨idx, Int.fdiv idx num_phi_bins + 1, Int.fmod idx num_phi_bins + 1,
              r, j, diff⟩ :: rs)
    else cmp_bins_rj tolerance num_phi_bins (idx + 1) rsv js

/-- Function `compare_histograms(root_hist, json_hist, name, tolerance)` of
`validate_root_json.py`: same edge and bin-count checks, then the loop with
`diff = root_val - json_val` and `num_phi_bins = len(y_edges_root) - 1`. -/
def compare_histograms_rj (root_hist json_hist : Grid) (tolerance : ℚ) :
    Except CmpErr (Nat × List DiffRec) :=
  if ¬ allclose root_hist.x_edges json_hist.x_edges tolerance then
    .error .x_edges_mismatch
  else if ¬ allclose root_hist.y_edges json_hist.y_edges tolerance then
    .error .y_edges_mismatch
  else if json_hist.values.length ≠ root_hist.values.length then
    .error .num_bins_mismatch
  else
    cmp_bins_rj tolerance ((root_hist.y_edges.length : Int) - 1) 0
      root_hist.values json_hist.values

/-- The exit decision of the `main` of `validate_root_json.py` once both
loads succeeded: a comparator abort exits `1`, otherwise
`sys.exit(0 if differences == 0 else 1)`. -/
def main_exit_code_rj (root_hist json_hist : Grid) (tolerance : ℚ) : Nat :=
  match compare_histograms_rj root_hist json_hist tolerance with
  | .error _ => 1
  | .ok (differences, _) => if differences = 0 then 0 else 1

/-- Specification of the number the comparison loop returns: how many aligned
positions differ by more than the tolerance in absolute value. -/
def count_diffs (tolerance : ℚ) (os ns : List ℚ) : Nat :=
  (os.zip ns).countP (fun p => decide (|p.2 - p.1| > tolerance))

/-- Specification of the record list the comparison loop of
`validate_root_root.py` / `validate_json_json.py` emits. -/
def mk_recs (tolerance : ℚ) (num_phi_bins : Int) :
    Nat → List ℚ → List ℚ → List DiffRec
  | _, [], _ => []
  | _, _ :: _, [] => []
  | idx, o :: os, n :: ns =>
    if |n - o| > tolerance then
      ⟨idx, Int.fdiv idx num_phi_bins + 1, Int.fmod idx num_phi_bins + 1,
        o, n, n - o⟩ :: mk_recs tolerance num_phi_bins (idx + 1) os ns
    else mk_recs tolerance num_phi_bins (idx + 1) os ns

/-- Specification of the record list the comparison loop of
`validate_root_json.py` emits (difference taken as root minus json). -/
def mk_recs_rj (tolerance : ℚ) (num_phi_bins : Int) :
    Nat → List ℚ → List ℚ → List DiffRec
  | _, [], _ => []
  | _, _ :: _, [] => []
  | idx, r :: rsv, j :: js =>
    if |r - j| > tolerance then
      ⟨idx, Int.fdiv idx num_phi_bins + 1, Int.fmod idx num_phi_bins + 1,
        r, j, r - j⟩ :: mk_recs_rj tolerance num_phi_bins (idx + 1) rsv js
    else mk_recs_rj tolerance num_phi_bins (idx + 1) rsv js

/-- The record list of a comparison outcome is in ascending flat-index
order (trivially so for aborted comparisons). -/
def ascending_idx : Except CmpErr (Nat × List DiffRec) → Prop
  | .error _ => True
  | .ok (_, rs) => (rs.map DiffRec.idx).Pairwise (· < ·)

/-- A 2D ROOT histogram as `remove_coordinates.py` and
`remove_bpix_region.py` access it: bin edges on both axes and the bin
contents, with `content` indexed so that the value of the 1-based ROOT bin
`(ix, iy)` is `content[ix-1][iy-1]`. -/
structure Hist2 where
  x_edges : List ℚ
  y_edges : List ℚ
  content : List (List ℚ)
deriving DecidableEq, Repr

/-- ROOT `GetNbinsX()`: one fewer than the number of X edges. -/
def Hist2.nbinsX (h : Hist2) : Nat := h.x_edges.length - 1

/-- ROOT `GetNbinsY()`: one fewer than the number of Y edges. -/
def Hist2.nbinsY (h : Hist2) : Nat := h.y_edges.length - 1

/-- ROOT `GetBinContent(ix, iy)` for 1-based in-range bin indices. -/
def Hist2.binContent (h : Hist2) (ix iy : Nat) : ℚ :=
  (h.content.getD (ix - 1) []).getD (iy - 1) 0

/-- ROOT `GetBinCenter(i)` of an axis with the given edges, for a 1-based
in-range bin index: the midpoint of the two surrounding edges. -/
def bin_center (edges : List ℚ) (i : Nat) : ℚ :=
  (edges.getD (i - 1) 0 + edges.getD i 0) / 2

/-- One `(etaMin, etaMax, phiMin, phiMax)` entry of the `REGIONS` list in
`remove_coordinates.py`. -/
structure Region where
  eta_min : ℚ
  eta_max : ℚ
  phi_min : ℚ
  phi_max : ℚ
deriving DecidableEq, Repr

/-- The hard-coded `REGIONS` list of `remove_coordinates.py`. -/
def REGIONS : List Region :=
  [⟨-2043 / 1000, -1566 / 1000, 2443461 / 1000000, 27925268 / 10000000⟩,
   ⟨-2043 / 1000, -183 / 100, 27925268 / 10000000, 30543262 / 10000000⟩]

/-- The membership test of `remove_regions`:
`eta_min < eta < eta_max and phi_min < phi < phi_max`, all strict. -/
def in_region (r : Region) (eta phi : ℚ) : Bool :=
  decide (r.eta_min < eta) && decide (eta < r.eta_max) &&
    decide (r.phi_min < phi) && decide (phi < r.phi_max)

/-- The inner region loop of `remove_regions` for one cell: the first
matching region zeroes the cell, bumps `removed_bins` by one and breaks;
no match leaves the value alone.  Returns the new value and the
`removed_bins` contribution. -/
def zero_in_first (regions : List Region) (eta phi v : ℚ) : ℚ × Nat :=
  match regions with
  | [] => (v, 0)
  | r :: rs => if in_region r eta phi then (0, 1) else zero_in_first rs eta phi v

/-- The histogram transformation of `remove_regions` in
`remove_coordinates.py` (the file I/O around it is out of scope): loop over
all 1-based bins `(ix, iy)`, apply the region loop to each cell of a clone
of the histogram, and count the zeroed bins.  Returns the modified clone
and `removed_bins`. -/
def remove_regions (h : Hist2) (regions : List Region) : Hist2 × Nat :=
  let cells := (List.range h.nbinsX).map (fun ix0 =>
    (List.range h.nbinsY).map (fun iy0 =>
      zero_in_first regions (bin_center h.x_edges (ix0 + 1))
        (bin_center h.y_edges (iy0 + 1)) (h.binContent (ix0 + 1) (iy0 + 1))))
  (⟨h.x_edges, h.y_edges, cells.map (fun row => row.map Prod.fst)⟩,
    (cells.map (fun row => (row.map Prod.snd).sum)).sum)

/-- The histogram transformation of `remove_bpix_region` in
`remove_bpix_region.py` (file I/O out of scope): after checking that both
histograms share the same bin counts on both axes (else a fatal
different-binning error), clone the base histogram and zero every cell whose
mask (`jetvetomap_bpix`) content is strictly positive. -/
def remove_bpix_region (jetvetomap jetvetomap_bpix : Hist2) :
    Except String Hist2 :=
  if jetvetomap.nbinsX ≠ jetvetomap_bpix.nbinsX ∨
      jetvetomap.nbinsY ≠ jetvetomap_bpix.nbinsY then
    .error "different binning"
  else
    .ok ⟨jetvetomap.x_edges, jetvetomap.y_edges,
      (List.range jetvetomap.nbinsX).map (fun ix0 =>
        (List.range jetvetomap.nbinsY).map (fun iy0 =>
          if jetvetomap_bpix.binContent (ix0 + 1) (iy0 + 1) > 0 then 0
          else jetvetomap.binContent (ix0 + 1) (iy0 + 1)))⟩

theorem cmp_bins_eq_ok (t : ℚ) {npb : Int} (h : npb ≠ 0) :
    ∀ (i : Nat) (os ns : List ℚ),
      cmp_bins t npb i os ns = .ok (count_diffs t os ns, mk_recs t npb i os ns)
  | _, [], _ => by simp [cmp_bins, count_diffs, mk_recs]
  | _, _ :: _, [] => by simp [cmp_bins, count_diffs, mk_recs]
  | i, o :: os, n :: ns => by
    have ih := cmp_bins_eq_ok t h (i + 1) os ns
    by_cases hd : |n - o| > t
    · simp [cmp_bins, count_diffs, mk_recs, hd, h, ih, List.countP_cons,
        Nat.add_comm]
    · simp [cmp_bins, count_diffs, mk_recs, hd, ih, List.countP_cons]

theorem cmp_bins_rj_eq_ok (t : ℚ) {npb : Int} (h : npb ≠ 0) :
    ∀ (i : Nat) (rsv js : List ℚ),
      cmp_bins_rj t npb i rsv js =
        .ok (count_diffs t js rsv, mk_recs_rj t npb i rsv js)
  | _, [], _ => by simp [cmp_bins_rj, count_diffs, mk_recs_rj]
  | _, _ :: _, [] => by simp [cmp_bins_rj, count_diffs, mk_recs_rj]
  | i, r :: rsv, j :: js => by
    have ih := cmp_bins_rj_eq_ok t h (i + 1) rsv js
    by_cases hd : |r - j| > t
    · simp [cmp_bins_rj, count_diffs, mk_recs_rj, hd, h, ih, List.countP_cons,
        Nat.add_comm]
    · simp [cmp_bins_rj, count_diffs, mk_recs_rj, hd, ih, List.countP_cons]

theorem mem_mk_recs {t : ℚ} {npb : Int} :
    ∀ {i : Nat} {os ns : List ℚ} {rec : DiffRec},
      rec ∈ mk_recs t npb i os ns →
      ∃ j a b, os.get? j = some a ∧ ns.get? j = some b ∧ |b - a| > t ∧
        rec = ⟨i + j, Int.fdiv ((i + j : Nat) : Int) npb + 1,
          Int.fmod ((i + j : Nat) : Int) npb + 1, a, b, b - a⟩
  | _, [], _, _, h => by simp [mk_recs] at h
  | _, _ :: _, [], _, h => by simp [mk_recs] at h
  | i, o :: os, n :: ns, rec, h => by
    by_cases hd : |n - o| > t
    · rw [mk_recs, if_pos hd] at h
      rcases List.mem_cons.mp h with h | h
      · exact ⟨0, o, n, rfl, rfl, hd, by simpa using h⟩
      · rcases mem_mk_recs h with ⟨j, a, b, ha, hb, hab, hrec⟩
        refine ⟨j + 1, a, b, by simpa using ha, by simpa using hb, hab, ?_⟩
        rw [hrec, show i + 1 + j = i + (j + 1) from by omega]
    · rw [mk_recs, if_neg hd] at h
      rcases mem_mk_recs h with ⟨j, a, b, ha, hb, hab, hrec⟩
      refine ⟨j + 1, a, b, by simpa using ha, by simpa using hb, hab, ?_⟩
      rw [hrec, show i + 1 + j = i + (j + 1) from by omega]

theorem mem_mk_recs_rj {t : ℚ} {npb : Int} :
    ∀ {i : Nat} {rsv js : List ℚ} {rec : DiffRec},
      rec ∈ mk_recs_rj t npb i rsv js →
      ∃ j a b, rsv.get? j = some a ∧ js.get? j = some b ∧ |a - b| > t ∧
        rec = ⟨i + j, Int.fdiv ((i + j : Nat) : Int) npb + 1,
          Int.fmod ((i + j : Nat) : Int) npb + 1, a, b, a - b⟩
  | _, [], _, _, h => by simp [mk_recs_rj] at h
  | _, _ :: _, [], _, h => by simp [mk_recs_rj] at h
  | i, r :: rsv, j :: js, rec, h => by
    by_cases hd : |r - j| > t
    · rw [mk_recs_rj, if_pos hd] at h
      rcases List.mem_cons.mp h with h | h
      · exact ⟨0, r, j, rfl, rfl, hd, by simpa using h⟩
      · rcases mem_mk_recs_rj h with ⟨k, a, b, ha, hb, hab, hrec⟩
        refine ⟨k + 1, a, b, by simpa using ha, by simpa using hb, hab, ?_⟩
        rw [hrec, show i + 1 + k = i + (k + 1) from by omega]
    · rw [mk_recs_rj, if_neg hd] at h
      rcases mem_mk_recs_rj h with ⟨k, a, b, ha, hb, hab, hrec⟩
      refine ⟨k + 1, a, b, by simpa using ha, by simpa using hb, hab, ?_⟩
      rw [hrec, show i + 1 + k = i + (k + 1) from by omega]

theorem mk_recs_idx_le {t : ℚ} {npb : Int} {i : Nat} {os ns : List ℚ}
    {rec : DiffRec} (h : rec ∈ mk_recs t npb i os ns) : i ≤ rec.idx := by
  rcases mem_mk_recs h with ⟨j, a, b, -, -, -, hrec⟩
  subst hrec
  exact Nat.le_add_right i j

theorem mk_recs_pairwise (t : ℚ) (npb : Int) :
    ∀ (i : Nat) (os ns : List ℚ),
      (mk_recs t npb i os ns).Pairwise (fun r s => r.idx < s.idx)
  | _, [], _ => by simp [mk_recs]
  | _, _ :: _, [] => by simp [mk_recs]
  | i, o :: os, n :: ns => by
    have ih := mk_recs_pairwise t npb (i + 1) os ns
    by_cases hd : |n - o| > t
    · rw [mk_recs, if_pos hd]
      refine List.Pairwise.cons (fun s hs => ?_) ih
      exact Nat.lt_of_lt_of_le (Nat.lt_succ_self i) (mk_recs_idx_le hs)
    · rw [mk_recs, if_neg hd]
      exact ih

theorem cmp_bins_zero (t : ℚ) :
    ∀ (i : Nat) (os ns : List ℚ),
      cmp_bins t 0 i os ns =
        if (os.zip ns).all (fun p => decide (|p.2 - p.1| ≤ t)) then
          .ok (0, []) else .error .zero_division
  | _, [], _ => by simp [cmp_bins]
  | _, _ :: _, [] => by simp [cmp_bins]
  | i, o :: os, n :: ns => by
    have ih := cmp_bins_zero t (i + 1) os ns
    by_cases hd : |n - o| > t
    · simp [cmp_bins, hd, not_le.mpr hd]
    · have hle : |n - o| ≤ t := not_lt.mp hd
      simp only [cmp_bins, if_neg hd]
      rw [ih, List.zip_cons_cons, List.all_cons, decide_eq_true hle,
        Bool.true_and]

theorem cmp_bins_self {t : ℚ} (h : 0 ≤ t) (npb : Int) :
    ∀ (i : Nat) (vs : List ℚ), cmp_bins t npb i vs vs = .ok (0, [])
  | _, [] => by simp [cmp_bins]
  | i, v :: vs => by
    have ih := cmp_bins_self h npb (i + 1) vs
    simp [cmp_bins, ih, not_lt.mpr h]

theorem allclose_eq_true_iff {a b : List ℚ} {t : ℚ} :
    allclose a b t = true ↔
      a.length = b.length ∧
        ∀ p ∈ a.zip b, |p.1 - p.2| ≤ t + np_rtol * |p.2| := by
  simp [allclose]

theorem mem_zip_self {α : Type} :
    ∀ {l : List α} {p : α × α}, p ∈ l.zip l → p.1 = p.2
  | [], p, h => by simp at h
  | x :: xs, p, h => by
    rw [List.zip_cons_cons] at h
    rcases List.mem_cons.mp h with h | h
    · subst h; rfl
    · exact mem_zip_self h

theorem allclose_self (l : List ℚ) {t : ℚ} (h : 0 ≤ t) :
    allclose l l t = true := by
  refine allclose_eq_true_iff.mpr ⟨rfl, fun p hp => ?_⟩
  rw [mem_zip_self hp]
  simp only [sub_self, abs_zero]
  have : (0 : ℚ) ≤ np_rtol * |p.2| :=
    mul_nonneg (by norm_num [np_rtol]) (abs_nonneg _)
  linarith

theorem get?_mem_zip {α β : Type} :
    ∀ {a : List α} {b : List β} {j : Nat} {x : α} {y : β},
      a.get? j = some x → b.get? j = some y → (x, y) ∈ a.zip b
  | [], _, j, _, _, hx, _ => by simp at hx
  | _ :: _, [], j, _, _, _, hy => by simp at hy
  | a :: as, b :: bs, 0, x, y, hx, hy => by
    simp only [List.get?] at hx hy
    cases hx; cases hy
    simp [List.zip_cons_cons]
  | a :: as, b :: bs, j + 1, x, y, hx, hy => by
    simp only [List.get?] at hx hy
    rw [List.zip_cons_cons]
    exact List.mem_cons_of_mem _ (get?_mem_zip hx hy)

theorem allclose_eq_false_of_far {a b : List ℚ} {t : ℚ} {j : Nat} {x y : ℚ}
    (hx : a.get? j = some x) (hy : b.get? j = some y)
    (hfar : t + np_rtol * |y| < |x - y|) : allclose a b t = false := by
  cases hall : allclose a b t with
  | false => rfl
  | true =>
    rcases allclose_eq_true_iff.mp hall with ⟨-, hp⟩
    have := hp (x, y) (get?_mem_zip hx hy)
    exact absurd this (not_le.mpr hfar)

theorem count_diffs_eq_zero_iff {t : ℚ} {os ns : List ℚ} :
    count_diffs t os ns = 0 ↔ ∀ p ∈ os.zip ns, |p.2 - p.1| ≤ t := by
  unfold count_diffs
  rw [List.countP_eq_zero]
  simp

theorem compare_histograms_ok_elim {o n : Grid} {t : ℚ} {c : Nat}
    {rs : List DiffRec} (h : compare_histograms o n t = .ok (c, rs)) :
    allclose o.x_edges n.x_edges t = true ∧
      allclose o.y_edges n.y_edges t = true ∧
      n.values.length = o.values.length ∧
      cmp_bins t ((o.y_edges.length : Int) - 1) 0 o.values n.values =
        .ok (c, rs) := by
  unfold compare_histograms at h
  split_ifs at h with h1 h2 h3
  exact ⟨h1, h2, not_not.mp h3, h⟩

theorem cmp_bins_rj_zero (t : ℚ) :
    ∀ (i : Nat) (rsv js : List ℚ),
      cmp_bins_rj t 0 i rsv js =
        if (rsv.zip js).all (fun p => decide (|p.1 - p.2| ≤ t)) then
          .ok (0, []) else .error .zero_division
  | _, [], _ => by simp [cmp_bins_rj]
  | _, _ :: _, [] => by simp [cmp_bins_rj]
  | i, r :: rsv, j :: js => by
    have ih := cmp_bins_rj_zero t (i + 1) rsv js
    by_cases hd : |r - j| > t
    · simp [cmp_bins_rj, hd, not_le.mpr hd]
    · have hle : |r - j| ≤ t := not_lt.mp hd
      simp only [cmp_bins_rj, if_neg hd]
      rw [ih, List.zip_cons_cons, List.all_cons, decide_eq_true hle,
        Bool.true_and]

theorem compare_histograms_rj_ok_elim {r j : Grid} {t : ℚ} {c : Nat}
    {rs : List DiffRec} (h : compare_histograms_rj r j t = .ok (c, rs)) :
    allclose r.x_edges j.x_edges t = true ∧
      allclose r.y_edges j.y_edges t = true ∧
      j.values.length = r.values.length ∧
      cmp_bins_rj t ((r.y_edges.length : Int) - 1) 0 r.values j.values =
        .ok (c, rs) := by
  unfold compare_histograms_rj at h
  split_ifs at h with h1 h2 h3
  exact ⟨h1, h2, not_not.mp h3, h⟩

theorem compare_ok_count {o n : Grid} {t : ℚ} {c : Nat} {rs : List DiffRec}
    (h : compare_histograms o n t = .ok (c, rs)) :
    c = 0 ↔ ∀ p ∈ o.values.zip n.values, |p.2 - p.1| ≤ t := by
  rcases compare_histograms_ok_elim h with ⟨-, -, -, hloop⟩
  by_cases hnpb : ((o.y_edges.length : Int) - 1) = 0
  · rw [hnpb, cmp_bins_zero] at hloop
    split_ifs at hloop with hall
    · obtain ⟨hc, -⟩ : (0 : Nat) = c ∧ ([] : List DiffRec) = rs := by
        simpa using hloop
      subst hc
      simp only [true_iff]
      intro p hp
      have := (List.all_eq_true.mp hall) p hp
      simpa using this
  · rw [cmp_bins_eq_ok t hnpb] at hloop
    obtain ⟨hc, -⟩ : count_diffs t o.values n.values = c ∧
        mk_recs t ((o.y_edges.length : Int) - 1) 0 o.values n.values = rs := by
      simpa using hloop
    subst hc
    exact count_diffs_eq_zero_iff

theorem compare_ok_recs {o n : Grid} {t : ℚ} {c : Nat} {rs : List DiffRec}
    (h : compare_histograms o n t = .ok (c, rs)) :
    rs = [] ∨
      rs = mk_recs t ((o.y_edges.length : Int) - 1) 0 o.values n.values := by
  rcases compare_histograms_ok_elim h with ⟨-, -, -, hloop⟩
  by_cases hnpb : ((o.y_edges.length : Int) - 1) = 0
  · rw [hnpb, cmp_bins_zero] at hloop
    split_ifs at hloop with hall
    · left
      obtain ⟨-, hrs⟩ : (0 : Nat) = c ∧ ([] : List DiffRec) = rs := by
        simpa using hloop
      exact hrs.symm
  · right
    rw [cmp_bins_eq_ok t hnpb] at hloop
    obtain ⟨-, hrs⟩ : count_diffs t o.values n.values = c ∧
        mk_recs t ((o.y_edges.length : Int) - 1) 0 o.values n.values = rs := by
      simpa using hloop
    exact hrs.symm

theorem compare_rj_ok_recs {r j : Grid} {t : ℚ} {c : Nat} {rs : List DiffRec}
    (h : compare_histograms_rj r j t = .ok (c, rs)) :
    rs = [] ∨
      rs = mk_recs_rj t ((r.y_edges.length : Int) - 1) 0 r.values j.values := by
  rcases compare_histograms_rj_ok_elim h with ⟨-, -, -, hloop⟩
  by_cases hnpb : ((r.y_edges.length : Int) - 1) = 0
  · rw [hnpb, cmp_bins_rj_zero] at hloop
    split_ifs at hloop with hall
    · left
      obtain ⟨-, hrs⟩ : (0 : Nat) = c ∧ ([] : List DiffRec) = rs := by
        simpa using hloop
      exact hrs.symm
  · right
    rw [cmp_bins_rj_eq_ok t hnpb] at hloop
    obtain ⟨-, hrs⟩ : count_diffs t j.values r.values = c ∧
        mk_recs_rj t ((r.y_edges.length : Int) - 1) 0 r.values j.values = rs := by
      simpa using hloop
    exact hrs.symm

theorem ascending_idx_compare (o n : Grid) (t : ℚ) :
    ascending_idx (compare_histograms o n t) := by
  cases hc : compare_histograms o n t with
  | error e => exact trivial
  | ok p =>
    obtain ⟨c, rs⟩ := p
    show (rs.map DiffRec.idx).Pairwise (· < ·)
    rcases compare_ok_recs hc with hrs | hrs
    · simp [hrs]
    · rw [hrs]
      exact List.Pairwise.map _ (fun a b hab => hab) (mk_recs_pairwise _ _ _ _ _)

theorem zero_in_first_eq (regions : List Region) (eta phi v : ℚ) :
    zero_in_first regions eta phi v =
      (if regions.any (fun r => in_region r eta phi) then 0 else v,
        if regions.any (fun r => in_region r eta phi) then 1 else 0) := by
  induction regions with
  | nil => simp [zero_in_first]
  | cons r rs ih =>
    by_cases hr : in_region r eta phi
    · simp [zero_in_first, hr]
    · simp [zero_in_first, hr, ih]

theorem getD_map_range {α : Type} {n i : Nat} (f : Nat → α) (d : α)
    (h : i < n) : ((List.range n).map f).getD i d = f i := by
  rw [List.getD_eq_getElem?_getD, List.getElem?_map, List.getElem?_range h]
  rfl

theorem sum_map_ite {α : Type} (l : List α) (p : α → Bool) :
    (l.map (fun a => if p a then (1 : Nat) else 0)).sum = l.countP p := by
  induction l with
  | nil => simp
  | cons a l ih =>
    by_cases hp : p a <;> simp [List.countP_cons, hp, ih, Nat.add_comm]

theorem main_exit_code_ok {o n : Grid} {t : ℚ} {c : Nat} {rs : List DiffRec}
    (h : compare_histograms o n t = .ok (c, rs)) :
    main_exit_code o n t = if c = 0 then 0 else 1 := by
  unfold main_exit_code
  rw [h]

theorem main_exit_code_error {o n : Grid} {t : ℚ} {e : CmpErr}
    (h : compare_histograms o n t = .error e) :
    main_exit_code o n t = 1 := by
  unfold main_exit_code
  rw [h]

theorem main_exit_code_rj_ok {r j : Grid} {t : ℚ} {c : Nat}
    {rs : List DiffRec} (h : compare_histograms_rj r j t = .ok (c, rs)) :
    main_exit_code_rj r j t = if c = 0 then 0 else 1 := by
  unfold main_exit_code_rj
  rw [h]

theorem main_exit_code_rj_error {r j : Grid} {t : ℚ} {e : CmpErr}
    (h : compare_histograms_rj r j t = .error e) :
    main_exit_code_rj r j t = 1 := by
  unfold main_exit_code_rj
  rw [h]

theorem mem_zip_swap {α β : Type} :
    ∀ {a : List α} {b : List β} {p : α × β},
      p ∈ a.zip b → (p.2, p.1) ∈ b.zip a
  | [], _, p, h => by simp at h
  | _ :: _, [], p, h => by simp at h
  | x :: xs, y :: ys, p, h => by
    rw [List.zip_cons_cons] at h
    rcases List.mem_cons.mp h with h | h
    · subst h
      simp [List.zip_cons_cons]
    · rw [List.zip_cons_cons]
      exact List.mem_cons_of_mem _ (mem_zip_swap h)

theorem compare_rj_ok_count {r j : Grid} {t : ℚ} {c : Nat}
    {rs : List DiffRec} (h : compare_histograms_rj r j t = .ok (c, rs)) :
    c = 0 ↔ ∀ p ∈ r.values.zip j.values, |p.1 - p.2| ≤ t := by
  rcases compare_histograms_rj_ok_elim h with ⟨-, -, -, hloop⟩
  by_cases hnpb : ((r.y_edges.length : Int) - 1) = 0
  · rw [hnpb, cmp_bins_rj_zero] at hloop
    split_ifs at hloop with hall
    obtain ⟨hc, -⟩ : (0 : Nat) = c ∧ ([] : List DiffRec) = rs := by
      simpa using hloop
    subst hc
    simp only [true_iff]
    intro p hp
    have := (List.all_eq_true.mp hall) p hp
    simpa using this
  · rw [cmp_bins_rj_eq_ok t hnpb] at hloop
    obtain ⟨hc, -⟩ : count_diffs t j.values r.values = c ∧
        mk_recs_rj t ((r.y_edges.length : Int) - 1) 0 r.values j.values = rs := by
      simpa using hloop
    subst hc
    rw [count_diffs_eq_zero_iff]
    constructor
    · intro hall p hp
      have := hall (p.2, p.1) (mem_zip_swap hp)
      simpa using this
    · intro hall p hp
      have := hall (p.2, p.1) (mem_zip_swap hp)
      simpa using this

theorem binContent_mk_range {xe ye : List ℚ} {nx ny : Nat} (f : Nat → Nat → ℚ)
    {ix0 iy0 : Nat} (hx : ix0 < nx) (hy : iy0 < ny) :
    (Hist2.mk xe ye ((List.range nx).map (fun jx =>
        (List.range ny).map (fun jy => f jx jy)))).binContent
        (ix0 + 1) (iy0 + 1) = f ix0 iy0 := by
  unfold Hist2.binContent
  simp only [Nat.add_sub_cancel]
  rw [getD_map_range _ _ hx, getD_map_range _ _ hy]

/-- Claim C1, counterexample: in `validate_root_json.py` the recorded signed
difference is the first argument's value minus the second argument's value,
not second minus first.  For the grids with single values 1 (first) and 2
(second) the recorded diff is `-1`, while second minus first is `1`. -/
theorem claim_C1_counterexample :
    compare_histograms_rj ⟨[0, 1], [0, 1], [1]⟩ ⟨[0, 1], [0, 1], [2]⟩
        (1 / 10) = .ok (1, [⟨0, 1, 1, 1, 2, -1⟩]) ∧
    (DiffRec.mk 0 1 1 1 2 (-1)).diff ≠ (2 : ℚ) - 1 := by
  refine ⟨?_, by norm_num⟩
  norm_num [compare_histograms_rj, cmp_bins_rj, allclose, np_rtol,
    abs_eq_max_neg, max_def, Int.fdiv, Int.fmod]

/-- Claim C1, amended: in `validate_root_root.py` and `validate_json_json.py`
every recorded cell's signed difference equals the second argument's value
minus the first argument's value at that cell's flat index; in
`validate_root_json.py` it is the first argument's (ROOT) value minus the
second argument's (JSON) value. -/
theorem claim_C1_diff_direction :
    (∀ (o n : Grid) (t : ℚ) (c : Nat) (rs : List DiffRec),
      compare_histograms o n t = .ok (c, rs) → ∀ rec ∈ rs,
        o.values.get? rec.idx = some rec.old_val ∧
        n.values.get? rec.idx = some rec.new_val ∧
        rec.diff = rec.new_val - rec.old_val) ∧
    (∀ (r j : Grid) (t : ℚ) (c : Nat) (rs : List DiffRec),
      compare_histograms_rj r j t = .ok (c, rs) → ∀ rec ∈ rs,
        r.values.get? rec.idx = some rec.old_val ∧
        j.values.get? rec.idx = some rec.new_val ∧
        rec.diff = rec.old_val - rec.new_val) := by
  constructor
  · intro o n t c rs h rec hrec
    rcases compare_ok_recs h with hrs | hrs
    · rw [hrs] at hrec
      simp at hrec
    · rw [hrs] at hrec
      rcases mem_mk_recs hrec with ⟨k, a, b, ha, hb, -, hr⟩
      subst hr
      refine ⟨?_, ?_, rfl⟩
      · show o.values.get? (0 + k) = some a
        rw [Nat.zero_add]
        exact ha
      · show n.values.get? (0 + k) = some b
        rw [Nat.zero_add]
        exact hb
  · intro r j t c rs h rec hrec
    rcases compare_rj_ok_recs h with hrs | hrs
    · rw [hrs] at hrec
      simp at hrec
    · rw [hrs] at hrec
      rcases mem_mk_recs_rj hrec with ⟨k, a, b, ha, hb, -, hr⟩
      subst hr
      refine ⟨?_, ?_, rfl⟩
      · show r.values.get? (0 + k) = some a
        rw [Nat.zero_add]
        exact ha
      · show j.values.get? (0 + k) = some b
        rw [Nat.zero_add]
        exact hb

/-- Witness for the amended claim C1, at the grids with single values 1 and
2 compared by `validate_root_root.py`'s comparator with tolerance 1/10. -/
theorem claim_C1_witness :
    (Grid.mk [0, 1] [0, 1] [1]).values.get? 0 = some 1 ∧
    (Grid.mk [0, 1] [0, 1] [2]).values.get? 0 = some 2 ∧
    (DiffRec.mk 0 1 1 1 2 1).diff = (2 : ℚ) - 1 :=
  claim_C1_diff_direction.1 ⟨[0, 1], [0, 1], [1]⟩ ⟨[0, 1], [0, 1], [2]⟩
    (1 / 10) 1 [⟨0, 1, 1, 1, 2, 1⟩]
    (by norm_num [compare_histograms, cmp_bins, allclose, np_rtol,
      abs_eq_max_neg, max_def, Int.fdiv, Int.fmod])
    ⟨0, 1, 1, 1, 2, 1⟩ (by simp)

/-- Claim C2: on grid A with edges `[0,1,2]`/`[0,1,2]` and values
`[1,2,3,4]` against grid B equal except value `3.5` at flat index 2, with
tolerance `0.1`, the comparison returns count 1 with the single record at
flat index 2 — the cell at row `2 / (Ny-1) = 1`, column `2 % (Ny-1) = 0`
(printed 1-based as `eta_bin = 2`, `phi_bin = 1`) — with values 3 and 3.5
and diff 0.5; and record lists are always emitted in ascending flat-index
order. -/
theorem claim_C2_example :
    (compare_histograms ⟨[0, 1, 2], [0, 1, 2], [1, 2, 3, 4]⟩
        ⟨[0, 1, 2], [0, 1, 2], [1, 2, 7/2, 4]⟩ (1 / 10) =
          .ok (1, [⟨2, 2, 1, 3, 7/2, 1/2⟩]) ∧
      2 / ((Grid.mk [0, 1, 2] [0, 1, 2] [1, 2, 3, 4]).y_edges.length - 1) = 1 ∧
      2 % ((Grid.mk [0, 1, 2] [0, 1, 2] [1, 2, 3, 4]).y_edges.length - 1) = 0) ∧
    ∀ (o n : Grid) (t : ℚ), ascending_idx (compare_histograms o n t) := by
  refine ⟨⟨?_, by decide, by decide⟩, ascending_idx_compare⟩
  norm_num [compare_histograms, cmp_bins, allclose, np_rtol,
    abs_eq_max_neg, max_def, Int.fdiv, Int.fmod]

/-- Claim C3, counterexample: the edge check is `np.allclose` with numpy's
default relative tolerance `1e-5` on top of `atol=tolerance`, so X edges
that differ by 1 — far beyond the tolerance `1e-6` — still pass when the
edge values are large, and the comparison completes normally instead of
failing fast. -/
theorem claim_C3_counterexample :
    (Grid.mk [0, 200000] [0, 1] [1]).x_edges.get? 1 = some 200000 ∧
    (Grid.mk [0, 200001] [0, 1] [1]).x_edges.get? 1 = some 200001 ∧
    |(200000 : ℚ) - 200001| > 1 / 1000000 ∧
    compare_histograms ⟨[0, 200000], [0, 1], [1]⟩ ⟨[0, 200001], [0, 1], [1]⟩
      (1 / 1000000) = .ok (0, []) := by
  refine ⟨rfl, rfl, by norm_num [abs_eq_max_neg, max_def], ?_⟩
  norm_num [compare_histograms, cmp_bins, allclose, np_rtol,
    abs_eq_max_neg, max_def]

/-- Claim C3, amended: the comparison fails fast — with an error naming the
axis or the bin count, and with no partial result — whenever the X edges
(resp. Y edges, given close X edges) violate the `np.allclose` criterion
`|old - new| <= tolerance + 1e-5 * |new|` at some index, or (given close
edges) the value-array lengths differ; this holds even when all bin values
are identical. -/
theorem claim_C3_failfast (o n : Grid) (t : ℚ) :
    (∀ j x y, o.x_edges.get? j = some x → n.x_edges.get? j = some y →
      t + np_rtol * |y| < |x - y| →
      compare_histograms o n t = .error .x_edges_mismatch) ∧
    (allclose o.x_edges n.x_edges t = true →
      ∀ j x y, o.y_edges.get? j = some x → n.y_edges.get? j = some y →
        t + np_rtol * |y| < |x - y| →
        compare_histograms o n t = .error .y_edges_mismatch) ∧
    (allclose o.x_edges n.x_edges t = true →
      allclose o.y_edges n.y_edges t = true →
      n.values.length ≠ o.values.length →
      compare_histograms o n t = .error .num_bins_mismatch) := by
  refine ⟨?_, ?_, ?_⟩
  · intro j x y hx hy hfar
    simp [compare_histograms, allclose_eq_false_of_far hx hy hfar]
  · intro hxc j x y hx hy hfar
    simp [compare_histograms, hxc, allclose_eq_false_of_far hx hy hfar]
  · intro hxc hyc hlen
    simp [compare_histograms, hxc, hyc, hlen]

/-- Witness for the amended claim C3: identical values but X edges `[0,1]`
against `[0,5]` with tolerance `1e-6` abort with the X-edge mismatch
error. -/
theorem claim_C3_witness :
    compare_histograms ⟨[0, 1], [0, 1], [1]⟩ ⟨[0, 5], [0, 1], [1]⟩
      (1 / 1000000) = .error .x_edges_mismatch :=
  (claim_C3_failfast _ _ _).1 1 1 5 rfl rfl
    (by norm_num [np_rtol, abs_eq_max_neg, max_def])

/-- Claim C4: every validation script (after successful loads) exits 0
exactly when its comparison succeeds with zero differing cells —
equivalently, when every aligned value pair is within the tolerance — and
exits 1 when some cell differs beyond the tolerance or the comparator
aborts; the tolerance defaults to `1e-6`.  Stated for the shared
`validate_root_root.py` / `validate_json_json.py` exit logic and for the
`validate_root_json.py` exit logic over its own comparator. -/
theorem claim_C4_exit_code (o n : Grid) (t : ℚ) :
    (main_exit_code o n t = 0 ∨ main_exit_code o n t = 1) ∧
    (main_exit_code o n t = 0 ↔
      ∃ rs, compare_histograms o n t = .ok (0, rs)) ∧
    (∀ c rs, compare_histograms o n t = .ok (c, rs) →
      (main_exit_code o n t = 0 ↔
        ∀ p ∈ o.values.zip n.values, |p.2 - p.1| ≤ t)) ∧
    (∀ e, compare_histograms o n t = .error e → main_exit_code o n t = 1) ∧
    (main_exit_code_rj o n t = 0 ∨ main_exit_code_rj o n t = 1) ∧
    (main_exit_code_rj o n t = 0 ↔
      ∃ rs, compare_histograms_rj o n t = .ok (0, rs)) ∧
    (∀ c rs, compare_histograms_rj o n t = .ok (c, rs) →
      (main_exit_code_rj o n t = 0 ↔
        ∀ p ∈ o.values.zip n.values, |p.1 - p.2| ≤ t)) ∧
    (∀ e, compare_histograms_rj o n t = .error e →
      main_exit_code_rj o n t = 1) ∧
    default_tolerance = 1 / 1000000 := by
  refine ⟨?_, ?_, ?_, fun e he => main_exit_code_error he,
    ?_, ?_, ?_, fun e he => main_exit_code_rj_error he, rfl⟩
  · rcases hc : compare_histograms o n t with e | ⟨c, rs⟩
    · right
      exact main_exit_code_error hc
    · rw [main_exit_code_ok hc]
      by_cases h0 : c = 0
      · left
        simp [h0]
      · right
        simp [h0]
  · constructor
    · intro h0
      rcases hc : compare_histograms o n t with e | ⟨c, rs⟩
      · rw [main_exit_code_error hc] at h0
        exact absurd h0 one_ne_zero
      · rw [main_exit_code_ok hc] at h0
        split_ifs at h0 with hcz
        subst hcz
        exact ⟨rs, rfl⟩
    · rintro ⟨rs, hc⟩
      rw [main_exit_code_ok hc]
      rfl
  · intro c rs hc
    have hif : ((if c = 0 then (0 : Nat) else 1) = 0) ↔ c = 0 := by
      split_ifs with h0 <;> simp [h0]
    rw [main_exit_code_ok hc, hif]
    exact compare_ok_count hc
  · rcases hc : compare_histograms_rj o n t with e | ⟨c, rs⟩
    · right
      exact main_exit_code_rj_error hc
    · rw [main_exit_code_rj_ok hc]
      by_cases h0 : c = 0
      · left
        simp [h0]
      · right
        simp [h0]
  · constructor
    · intro h0
      rcases hc : compare_histograms_rj o n t with e | ⟨c, rs⟩
      · rw [main_exit_code_rj_error hc] at h0
        exact absurd h0 one_ne_zero
      · rw [main_exit_code_rj_ok hc] at h0
        split_ifs at h0 with hcz
        subst hcz
        exact ⟨rs, rfl⟩
    · rintro ⟨rs, hc⟩
      rw [main_exit_code_rj_ok hc]
      rfl
  · intro c rs hc
    have hif : ((if c = 0 then (0 : Nat) else 1) = 0) ↔ c = 0 := by
      split_ifs with h0 <;> simp [h0]
    rw [main_exit_code_rj_ok hc, hif]
    exact compare_rj_ok_count hc

/-- Witness for claim C4: two equal single-bin grids exit 0 at the default
tolerance. -/
theorem claim_C4_witness :
    main_exit_code ⟨[0, 1], [0, 1], [1]⟩ ⟨[0, 1], [0, 1], [1]⟩
      default_tolerance = 0 :=
  ((claim_C4_exit_code _ _ _).2.1).mpr ⟨[],
    by norm_num [compare_histograms, cmp_bins, allclose, np_rtol,
      default_tolerance, abs_eq_max_neg, max_def]⟩

/-- Claim C7: in every comparison script the tolerance is an absolute,
strict threshold: every recorded cell's difference exceeds the tolerance in
absolute value, and a cell whose absolute difference equals the tolerance
exactly is never recorded.  Stated for the shared
`validate_root_root.py` / `validate_json_json.py` comparator and for the
`validate_root_json.py` comparator. -/
theorem claim_C7_strict_threshold :
    (∀ (o n : Grid) (t : ℚ) (c : Nat) (rs : List DiffRec),
      compare_histograms o n t = .ok (c, rs) →
      (∀ rec ∈ rs, |rec.diff| > t) ∧
      (∀ j a b, o.values.get? j = some a → n.values.get? j = some b →
        |b - a| = t → ∀ rec ∈ rs, rec.idx ≠ j)) ∧
    (∀ (r j : Grid) (t : ℚ) (c : Nat) (rs : List DiffRec),
      compare_histograms_rj r j t = .ok (c, rs) →
      (∀ rec ∈ rs, |rec.diff| > t) ∧
      (∀ k a b, r.values.get? k = some a → j.values.get? k = some b →
        |a - b| = t → ∀ rec ∈ rs, rec.idx ≠ k)) := by
  constructor
  · intro o n t c rs h
    constructor
    · intro rec hrec
      rcases compare_ok_recs h with hrs | hrs
      · rw [hrs] at hrec
        simp at hrec
      · rw [hrs] at hrec
        rcases mem_mk_recs hrec with ⟨k, a, b, -, -, hab, hr⟩
        subst hr
        simpa using hab
    · intro j a b ha hb heq rec hrec hidx
      rcases compare_ok_recs h with hrs | hrs
      · rw [hrs] at hrec
        simp at hrec
      · rw [hrs] at hrec
        rcases mem_mk_recs hrec with ⟨k, a2, b2, ha2, hb2, hab, hr⟩
        subst hr
        simp only [Nat.zero_add] at hidx
        subst hidx
        have haa : a2 = a := Option.some.inj (ha2.symm.trans ha)
        have hbb : b2 = b := Option.some.inj (hb2.symm.trans hb)
        rw [haa, hbb, heq] at hab
        exact lt_irrefl t hab
  · intro r j t c rs h
    constructor
    · intro rec hrec
      rcases compare_rj_ok_recs h with hrs | hrs
      · rw [hrs] at hrec
        simp at hrec
      · rw [hrs] at hrec
        rcases mem_mk_recs_rj hrec with ⟨k, a, b, -, -, hab, hr⟩
        subst hr
        simpa using hab
    · intro k a b ha hb heq rec hrec hidx
      rcases compare_rj_ok_recs h with hrs | hrs
      · rw [hrs] at hrec
        simp at hrec
      · rw [hrs] at hrec
        rcases mem_mk_recs_rj hrec with ⟨m, a2, b2, ha2, hb2, hab, hr⟩
        subst hr
        simp only [Nat.zero_add] at hidx
        subst hidx
        have haa : a2 = a := Option.some.inj (ha2.symm.trans ha)
        have hbb : b2 = b := Option.some.inj (hb2.symm.trans hb)
        rw [haa, hbb, heq] at hab
        exact lt_irrefl t hab

/-- Witness for claim C7: with tolerance 1/10, the cell at flat index 0
differs by exactly the tolerance and is not recorded (the single record sits
at flat index 1, whose difference is 1). -/
theorem claim_C7_witness :
    (DiffRec.mk 1 2 1 2 3 1).idx ≠ 0 :=
  (claim_C7_strict_threshold.1 ⟨[0, 1, 2], [0, 1], [1, 2]⟩
    ⟨[0, 1, 2], [0, 1], [11/10, 3]⟩ (1 / 10) 1 [⟨1, 2, 1, 2, 3, 1⟩]
    (by norm_num [compare_histograms, cmp_bins, allclose, np_rtol,
      abs_eq_max_neg, max_def, Int.fdiv, Int.fmod])).2 0 1 (11/10)
    rfl rfl (by norm_num [abs_eq_max_neg, max_def]) ⟨1, 2, 1, 2, 3, 1⟩
    (by simp)

/-- Claim C8 (reflexivity): comparing any grid with itself at any
nonnegative tolerance reports zero differing cells. -/
theorem claim_C8_reflexivity (g : Grid) (t : ℚ) (h : 0 ≤ t) :
    compare_histograms g g t = .ok (0, []) := by
  simp [compare_histograms, allclose_self _ h, cmp_bins_self h]

/-- Witness for claim C8 at a concrete single-bin grid and tolerance. -/
theorem claim_C8_witness :
    compare_histograms ⟨[0, 1], [0, 1], [5]⟩ ⟨[0, 1], [0, 1], [5]⟩ (1 / 2) =
      .ok (0, []) :=
  claim_C8_reflexivity ⟨[0, 1], [0, 1], [5]⟩ (1 / 2) (by norm_num)

/-- Claim C9: with a single Y edge (zero phi bins) and a value differing
beyond the tolerance, the comparison loop hits the division by zero in
`idx // num_phi_bins` instead of returning a count; with at least two Y
edges that division can never be reached with a zero divisor. -/
theorem claim_C9_zero_division :
    compare_histograms ⟨[0, 1], [0], [1]⟩ ⟨[0, 1], [0], [2]⟩
        default_tolerance = .error .zero_division ∧
    ∀ (o n : Grid) (t : ℚ), 2 ≤ o.y_edges.length →
      compare_histograms o n t ≠ .error .zero_division := by
  constructor
  · norm_num [compare_histograms, cmp_bins, allclose, np_rtol,
      default_tolerance, abs_eq_max_neg, max_def]
  · intro o n t hlen hcontra
    have hnpb : ((o.y_edges.length : Int) - 1) ≠ 0 := by
      omega
    unfold compare_histograms at hcontra
    split_ifs at hcontra with h1 h2 h3
    all_goals first
      | simp at hcontra
      | (rw [cmp_bins_eq_ok t hnpb] at hcontra; simp at hcontra)

/-- Witness for claim C9: a comparison with two Y edges never aborts with
the zero-division error. -/
theorem claim_C9_witness :
    compare_histograms ⟨[0, 1], [0, 1], [1]⟩ ⟨[0, 1], [0, 1], [2]⟩ (1 / 10) ≠
      .error .zero_division :=
  claim_C9_zero_division.2 ⟨[0, 1], [0, 1], [1]⟩ ⟨[0, 1], [0, 1], [2]⟩
    (1 / 10) (by norm_num)

/-- Claim C5: `remove_regions` zeroes exactly the cells whose bin center
lies strictly inside some listed region — a center on a region boundary is
not zeroed since membership is strict — and `removed_bins` counts each such
cell exactly once however many overlapping regions contain it; the result
is a new grid (the transformation is a pure function of the input). -/
theorem claim_C5_region_zeroing (h : Hist2) (regions : List Region)
    (ix0 iy0 : Nat) (hx : ix0 < h.nbinsX) (hy : iy0 < h.nbinsY) :
    ((remove_regions h regions).1.binContent (ix0 + 1) (iy0 + 1) =
      if regions.any (fun r => in_region r (bin_center h.x_edges (ix0 + 1))
          (bin_center h.y_edges (iy0 + 1))) then 0
      else h.binContent (ix0 + 1) (iy0 + 1)) ∧
    (remove_regions h regions).2 =
      ((List.range h.nbinsX).map (fun jx =>
        (List.range h.nbinsY).countP (fun jy =>
          regions.any (fun r => in_region r (bin_center h.x_edges (jx + 1))
            (bin_center h.y_edges (jy + 1)))))).sum := by
  constructor
  · have hfst : (remove_regions h regions).1 =
        Hist2.mk h.x_edges h.y_edges ((List.range h.nbinsX).map (fun jx =>
          (List.range h.nbinsY).map (fun jy =>
            (zero_in_first regions (bin_center h.x_edges (jx + 1))
              (bin_center h.y_edges (jy + 1))
              (h.binContent (jx + 1) (jy + 1))).1))) := by
      unfold remove_regions
      simp [List.map_map, Function.comp_def]
    rw [hfst, binContent_mk_range _ hx hy, zero_in_first_eq]
  · have hsnd : (remove_regions h regions).2 =
        ((List.range h.nbinsX).map (fun jx =>
          ((List.range h.nbinsY).map (fun jy =>
            (zero_in_first regions (bin_center h.x_edges (jx + 1))
              (bin_center h.y_edges (jy + 1))
              (h.binContent (jx + 1) (jy + 1))).2)).sum)).sum := by
      unfold remove_regions
      simp [List.map_map, Function.comp_def]
    rw [hsnd]
    congr 1
    apply List.map_congr_left
    intro jx hjx
    rw [show ((List.range h.nbinsY).map (fun jy =>
        (zero_in_first regions (bin_center h.x_edges (jx + 1))
          (bin_center h.y_edges (jy + 1))
          (h.binContent (jx + 1) (jy + 1))).2)) =
      ((List.range h.nbinsY).map (fun jy =>
        if (List.any regions fun r => in_region r
            (bin_center h.x_edges (jx + 1))
            (bin_center h.y_edges (jy + 1))) then (1 : Nat) else 0)) from by
        apply List.map_congr_left
        intro jy hjy
        rw [zero_in_first_eq]]
    exact sum_map_ite _ _

/-- Witness for claim C5: the 2x2 grid with unit bins and the single region
`(0,1,0,1)`: the cell with center `(0.5, 0.5)` lies strictly inside and is
zeroed; the count sums over all four cells. -/
theorem claim_C5_witness :
    ((remove_regions ⟨[0, 1, 2], [0, 1, 2], [[1, 2], [3, 4]]⟩
        [⟨0, 1, 0, 1⟩]).1.binContent 1 1 =
      if [(⟨0, 1, 0, 1⟩ : Region)].any (fun r =>
          in_region r (bin_center [0, 1, 2] 1) (bin_center [0, 1, 2] 1))
        then 0
      else (Hist2.mk [0, 1, 2] [0, 1, 2] [[1, 2], [3, 4]]).binContent 1 1) ∧
    (remove_regions ⟨[0, 1, 2], [0, 1, 2], [[1, 2], [3, 4]]⟩
        [⟨0, 1, 0, 1⟩]).2 =
      ((List.range (Hist2.mk [0, 1, 2] [0, 1, 2] [[1, 2], [3, 4]]).nbinsX).map
        (fun jx => (List.range
            (Hist2.mk [0, 1, 2] [0, 1, 2] [[1, 2], [3, 4]]).nbinsY).countP
          (fun jy => [(⟨0, 1, 0, 1⟩ : Region)].any (fun r =>
            in_region r (bin_center [0, 1, 2] (jx + 1))
              (bin_center [0, 1, 2] (jy + 1)))))).sum :=
  claim_C5_region_zeroing ⟨[0, 1, 2], [0, 1, 2], [[1, 2], [3, 4]]⟩
    [⟨0, 1, 0, 1⟩] 0 0 (by decide) (by decide)

/-- Claim C6: `remove_bpix_region` aborts with the different-binning error
when the two histograms disagree in the bin count of either axis (before
producing any result), and otherwise returns a copy of the base histogram
in which exactly the cells with strictly positive mask content are zeroed
and all cells with mask content 0 keep their base value. -/
theorem claim_C6_subtract_mask (base mask : Hist2) :
    ((base.nbinsX ≠ mask.nbinsX ∨ base.nbinsY ≠ mask.nbinsY) →
      remove_bpix_region base mask = .error "different binning") ∧
    (base.nbinsX = mask.nbinsX → base.nbinsY = mask.nbinsY →
      ∃ res, remove_bpix_region base mask = .ok res ∧
        ∀ ix0 iy0, ix0 < base.nbinsX → iy0 < base.nbinsY →
          res.binContent (ix0 + 1) (iy0 + 1) =
            if mask.binContent (ix0 + 1) (iy0 + 1) > 0 then 0
            else base.binContent (ix0 + 1) (iy0 + 1)) := by
  constructor
  · intro hmis
    unfold remove_bpix_region
    rw [if_pos hmis]
  · intro hx hy
    refine ⟨⟨base.x_edges, base.y_edges,
      (List.range base.nbinsX).map (fun jx =>
        (List.range base.nbinsY).map (fun jy =>
          if mask.binContent (jx + 1) (jy + 1) > 0 then 0
          else base.binContent (jx + 1) (jy + 1)))⟩, ?_, ?_⟩
    · unfold remove_bpix_region
      rw [if_neg (by simp [hx, hy])]
    · intro ix0 iy0 hix hiy
      exact binContent_mk_range _ hix hiy

/-- Witness for claim C6 on matching 1x1 histograms with mask content 1. -/
theorem claim_C6_witness :
    ∃ res, remove_bpix_region ⟨[0, 1], [0, 1], [[5]]⟩
        ⟨[0, 1], [0, 1], [[1]]⟩ = .ok res ∧
      ∀ ix0 iy0, ix0 < (Hist2.mk [0, 1] [0, 1] [[5]]).nbinsX →
        iy0 < (Hist2.mk [0, 1] [0, 1] [[5]]).nbinsY →
        res.binContent (ix0 + 1) (iy0 + 1) =
          if (Hist2.mk [0, 1] [0, 1] [[1]]).binContent (ix0 + 1) (iy0 + 1) > 0
            then 0
          else (Hist2.mk [0, 1] [0, 1] [[5]]).binContent (ix0 + 1) (iy0 + 1) :=
  (claim_C6_subtract_mask ⟨[0, 1], [0, 1], [[5]]⟩ ⟨[0, 1], [0, 1], [[1]]⟩).2
    rfl rfl

/-- Claim C10: in `remove_bpix_region` only strictly positive mask content
zeroes a cell; a strictly negative mask value (such as the `-100` cold
sentinel) leaves the base cell unchanged, exactly like mask content 0. -/
theorem claim_C10_negative_mask (base mask res : Hist2) (ix0 iy0 : Nat)
    (hres : remove_bpix_region base mask = .ok res)
    (hx : ix0 < base.nbinsX) (hy : iy0 < base.nbinsY)
    (hneg : mask.binContent (ix0 + 1) (iy0 + 1) < 0) :
    res.binContent (ix0 + 1) (iy0 + 1) = base.binContent (ix0 + 1) (iy0 + 1)
    := by
  unfold remove_bpix_region at hres
  split_ifs at hres with hdim
  obtain rfl : res = Hist2.mk base.x_edges base.y_edges
      ((List.range base.nbinsX).map (fun jx =>
        (List.range base.nbinsY).map (fun jy =>
          if mask.binContent (jx + 1) (jy + 1) > 0 then 0
          else base.binContent (jx + 1) (jy + 1)))) := by
    have := hres
    simp only [Except.ok.injEq] at this
    exact this.symm
  rw [binContent_mk_range _ hx hy, if_neg (not_lt.mpr (le_of_lt hneg))]

/-- Witness for claim C10 on 1x1 histograms with mask content -100. -/
theorem claim_C10_witness :
    (Hist2.mk [0, 1] [0, 1] [[5]]).binContent 1 1 =
      (Hist2.mk [0, 1] [0, 1] [[5]]).binContent 1 1 :=
  claim_C10_negative_mask ⟨[0, 1], [0, 1], [[5]]⟩ ⟨[0, 1], [0, 1], [[-100]]⟩
    ⟨[0, 1], [0, 1], [[5]]⟩ 0 0
    (by norm_num [remove_bpix_region, Hist2.nbinsX, Hist2.nbinsY,
      Hist2.binContent, List.range_succ, List.range_zero])
    (by decide) (by decide)
    (by norm_num [Hist2.binContent])

end Jvm
